import Mathlib

/-!
Verification of the ByzCoin ledger service (cothority repository) against its
natural-language specification.  The Go sources under `byzcoin/` are shallowly
embedded: byte strings become `List Nat` (each entry a byte value), machine
integers become `Nat`/`Int` with explicit wrapping where overflow matters, and
fallible Go functions become `Except`-valued Lean functions.  External
collaborators that the spec declares out of scope (the skip-chain block store,
protobuf codecs, kyber crypto, the onet networking layer) enter as function
parameters or as values already decoded.
-/

namespace ByzCoin

/-- Byte strings (Go `[]byte` and `string`): lists of byte values. -/
abbrev Bytes := List Nat

/-- Reduction modulo 2^32, the wrap-around of Go `uint32` arithmetic. -/
def wrap32 (n : Nat) : Nat := n % 4294967296

/-- Little-endian 8-byte encoding, as produced by Go
`binary.LittleEndian.PutUint64`. -/
def u64le (n : Nat) : Bytes :=
  [n % 256, n / 256 % 256, n / 256 ^ 2 % 256, n / 256 ^ 3 % 256,
   n / 256 ^ 4 % 256, n / 256 ^ 5 % 256, n / 256 ^ 6 % 256, n / 256 ^ 7 % 256]

/-- Little-endian 4-byte encoding, as produced by Go
`binary.LittleEndian.PutUint32`. -/
def u32le (n : Nat) : Bytes :=
  [n % 256, n / 256 % 256, n / 256 ^ 2 % 256, n / 256 ^ 3 % 256]

/-- Decoding of Go `binary.LittleEndian.Uint64`: reads the first 8 bytes. -/
def u64leDecode (l : Bytes) : Nat :=
  (l.take 8).foldr (fun b acc => b + 256 * acc) 0

/-- Big-endian 4-byte encoding of a 32-bit word (SHA-256 output order). -/
def be32 (n : Nat) : Bytes :=
  [n / 256 ^ 3 % 256, n / 256 ^ 2 % 256, n / 256 % 256, n % 256]

/-- Big-endian 8-byte encoding (the SHA-256 length field). -/
def be64 (n : Nat) : Bytes :=
  [n / 256 ^ 7 % 256, n / 256 ^ 6 % 256, n / 256 ^ 5 % 256, n / 256 ^ 4 % 256,
   n / 256 ^ 3 % 256, n / 256 ^ 2 % 256, n / 256 % 256, n % 256]

/-! SHA-256 (FIPS 180-4), the hash used by `crypto/sha256` in the Go source.
Words are `Nat` values below 2^32, kept in range by `wrap32`. -/

/-- Right rotation of a 32-bit word (input assumed below 2^32). -/
def rotr32 (n x : Nat) : Nat := x / 2 ^ n + x % 2 ^ n * 2 ^ (32 - n)

/-- SHA-256 small sigma 0. -/
def ssig0 (x : Nat) : Nat := rotr32 7 x ^^^ rotr32 18 x ^^^ x / 2 ^ 3

/-- SHA-256 small sigma 1. -/
def ssig1 (x : Nat) : Nat := rotr32 17 x ^^^ rotr32 19 x ^^^ x / 2 ^ 10

/-- SHA-256 big sigma 0. -/
def bsig0 (x : Nat) : Nat := rotr32 2 x ^^^ rotr32 13 x ^^^ rotr32 22 x

/-- SHA-256 big sigma 1. -/
def bsig1 (x : Nat) : Nat := rotr32 6 x ^^^ rotr32 11 x ^^^ rotr32 25 x

/-- SHA-256 choice function; complement is taken within 32 bits. -/
def chf (x y z : Nat) : Nat := (x &&& y) ^^^ ((x ^^^ 4294967295) &&& z)

/-- SHA-256 majority function. -/
def majf (x y z : Nat) : Nat := (x &&& y) ^^^ (x &&& z) ^^^ (y &&& z)

/-- SHA-256 round constants (FIPS 180-4 section 4.2.2, in decimal). -/
def sha256K : List Nat :=
  [1116352408, 1899447441, 3049323471, 3921009573, 961987163, 1508970993,
   2453635748, 2870763221, 3624381080, 310598401, 607225278, 1426881987,
   1925078388, 2162078206, 2614888103, 3248222580, 3835390401, 4022224774,
   264347078, 604807628, 770255983, 1249150122, 1555081692, 1996064986,
   2554220882, 2821834349, 2952996808, 3210313671, 3336571891, 3584528711,
   113926993, 338241895, 666307205, 773529912, 1294757372, 1396182291,
   1695183700, 1986661051, 2177026350, 2456956037, 2730485921, 2820302411,
   3259730800, 3345764771, 3516065817, 3600352804, 4094571909, 275423344,
   430227734, 506948616, 659060556, 883997877, 958139571, 1322822218,
   1537002063, 1747873779, 1955562222, 2024104815, 2227730452, 2361852424,
   2428436474, 2756734187, 3204031479, 3329325298]

/-- Padding: append 0x80, zero bytes up to 56 mod 64, then the big-endian
64-bit bit length. -/
def sha256Pad (msg : Bytes) : Bytes :=
  msg ++ [128] ++ List.replicate ((119 - msg.length % 64) % 64) 0
      ++ be64 (8 * msg.length)

/-- Split a byte string into 64-byte blocks. -/
def toBlocks : Bytes → List Bytes
  | [] => []
  | a :: l => (a :: l).take 64 :: toBlocks ((a :: l).drop 64)
termination_by l => l.length
decreasing_by simp [List.length_drop]; omega

/-- Parse a block into 16 big-endian 32-bit words. -/
def blockWords : Bytes → List Nat
  | b0 :: b1 :: b2 :: b3 :: rest =>
      (((b0 * 256 + b1) * 256 + b2) * 256 + b3) :: blockWords rest
  | _ => []

/-- Extend a message schedule by `k` further words. -/
def extendW (w : List Nat) : Nat → List Nat
  | 0 => w
  | k + 1 =>
      extendW (w ++ [wrap32 (ssig1 (w.getD (w.length - 2) 0)
        + w.getD (w.length - 7) 0 + ssig0 (w.getD (w.length - 15) 0)
        + w.getD (w.length - 16) 0)]) k

/-- Working state of the SHA-256 compression function. -/
structure Sha256St where
  a : Nat
  b : Nat
  c : Nat
  d : Nat
  e : Nat
  f : Nat
  g : Nat
  hh : Nat
deriving DecidableEq, Repr

/-- The SHA-256 initial hash value (FIPS 180-4 section 5.3.3, in decimal). -/
def sha256Init : Sha256St :=
  ⟨1779033703, 3144134277, 1013904242, 2773480762,
   1359893119, 2600822924, 528734635, 1541459225⟩

/-- One round of the compression function with round constant `k` and
schedule word `w`. -/
def sha256Round (s : Sha256St) (kw : Nat × Nat) : Sha256St :=
  let t1 := wrap32 (s.hh + bsig1 s.e + chf s.e s.f s.g + kw.1 + kw.2)
  let t2 := wrap32 (bsig0 s.a + majf s.a s.b s.c)
  ⟨wrap32 (t1 + t2), s.a, s.b, s.c, wrap32 (s.d + t1), s.e, s.f, s.g⟩

/-- Compress one 64-byte block into the running state. -/
def sha256Block (hs : Sha256St) (block : Bytes) : Sha256St :=
  let w := extendW (blockWords block) 48
  let s := (sha256K.zip w).foldl sha256Round hs
  ⟨wrap32 (hs.a + s.a), wrap32 (hs.b + s.b), wrap32 (hs.c + s.c),
   wrap32 (hs.d + s.d), wrap32 (hs.e + s.e), wrap32 (hs.f + s.f),
   wrap32 (hs.g + s.g), wrap32 (hs.hh + s.hh)⟩

/-- SHA-256 of a byte string, as the 32 digest bytes. -/
def sha256 (msg : Bytes) : Bytes :=
  let s := (toBlocks (sha256Pad msg)).foldl sha256Block sha256Init
  be32 s.a ++ be32 s.b ++ be32 s.c ++ be32 s.d
    ++ be32 s.e ++ be32 s.f ++ be32 s.g ++ be32 s.hh

/-! Data model of `byzcoin/transaction.go`.  Go strings are byte strings, so
`ContractID`, `Command` and argument names are `Bytes`.  A signer identity
enters through the bytes its `GetPublicBytes()` returns. -/

/-- Argument of a Spawn or Invoke (transaction.go, `Argument`). -/
structure Argument where
  name : Bytes
  value : Bytes
deriving DecidableEq, Repr

/-- Spawn payload (transaction.go, `Spawn`). -/
structure Spawn where
  contractID : Bytes
  args : List Argument
deriving DecidableEq, Repr

/-- Invoke payload (transaction.go, `Invoke`). -/
structure Invoke where
  contractID : Bytes
  command : Bytes
  args : List Argument
deriving DecidableEq, Repr

/-- Delete payload (transaction.go, `Delete`). -/
structure Delete where
  contractID : Bytes
deriving DecidableEq, Repr

/-- Instruction (transaction.go): at most one of `spawn`, `invoke`, `delete`
is set, mirroring the three Go pointer fields.  `instanceID` is the 32-byte
target, `signerIdentities` holds each identity's public bytes. -/
structure Instruction where
  instanceID : Bytes
  spawn : Option Spawn
  invoke : Option Invoke
  delete : Option Delete
  signerCounter : List Nat
  signerIdentities : List Bytes
  signatures : List Bytes
deriving DecidableEq, Repr

/-- Instruction type (transaction.go, `InstrType`). -/
inductive InstrType where
  | invalidInstr
  | spawnInstr
  | invokeInstr
  | deleteInstr
deriving DecidableEq, Repr

/-- Go `Instruction.GetType`: the variant whose pointer alone is set. -/
def Instruction.GetType (instr : Instruction) : InstrType :=
  match instr.spawn, instr.invoke, instr.delete with
  | some _, none, none => .spawnInstr
  | none, some _, none => .invokeInstr
  | none, none, some _ => .deleteInstr
  | _, _, _ => .invalidInstr

/-- Bytes contributed to the instruction hash by one argument: u64
little-endian name length, name, u64 value length, value
(transaction.go lines 133-144). -/
def argBytes (a : Argument) : Bytes :=
  u64le a.name.length ++ a.name ++ u64le a.value.length ++ a.value

/-- Bytes contributed by one signer identity: u64 little-endian length of the
public bytes, then the public bytes (transaction.go lines 150-156). -/
def identityBytes (id : Bytes) : Bytes :=
  u64le id.length ++ id

/-- Byte string fed to SHA-256 by Go `Instruction.Hash` (transaction.go lines
116-158): instance ID, then per variant a tag byte and the contract ID (and
for the variants that carry arguments, the argument encodings), then the
signer counters as u64 little-endian, then the signer identities.  Note the
Go code does not write `Invoke.Command`. -/
def Instruction.hashInput (instr : Instruction) : Bytes :=
  instr.instanceID ++
    (match instr.GetType, instr.spawn, instr.invoke, instr.delete with
      | .spawnInstr, some s, _, _ =>
          [0] ++ s.contractID ++ (s.args.map argBytes).flatten
      | .invokeInstr, _, some i, _ =>
          [1] ++ i.contractID ++ (i.args.map argBytes).flatten
      | .deleteInstr, _, _, some d => [2] ++ d.contractID
      | _, _, _, _ => []) ++
    (instr.signerCounter.map u64le).flatten ++
    (instr.signerIdentities.map identityBytes).flatten

/-- Go `Instruction.Hash`: SHA-256 of the canonical bytes. -/
def Instruction.Hash (instr : Instruction) : Bytes :=
  sha256 instr.hashInput

/-- Go `Instructions.Hash` (transaction.go lines 368-374): SHA-256 of the
concatenation of every instruction's hash. -/
def instructionsHash (instrs : List Instruction) : Bytes :=
  sha256 (instrs.map Instruction.Hash).flatten

/-- Canonical bytes exactly as the specification claims them (spec 4.2 and
claim C1): `instance_id || variant_tag || contract_id || (command if invoke)
|| args || counters || signer identities`.  This is the spec-side reading the
code is compared against; it differs from `Instruction.hashInput` by the
`command` field. -/
def specHashInputClaimed (instr : Instruction) : Bytes :=
  instr.instanceID ++
    (match instr.GetType, instr.spawn, instr.invoke, instr.delete with
      | .spawnInstr, some s, _, _ =>
          [0] ++ s.contractID ++ (s.args.map argBytes).flatten
      | .invokeInstr, _, some i, _ =>
          [1] ++ i.contractID ++ i.command ++ (i.args.map argBytes).flatten
      | .deleteInstr, _, _, some d => [2] ++ d.contractID
      | _, _, _, _ => []) ++
    (instr.signerCounter.map u64le).flatten ++
    (instr.signerIdentities.map identityBytes).flatten

/-- Canonical bytes as the claim must be amended: identical to the claimed
layout except that no command string is written for Invoke. -/
def specHashInputAmended (instr : Instruction) : Bytes :=
  instr.instanceID ++
    (match instr.GetType, instr.spawn, instr.invoke, instr.delete with
      | .spawnInstr, some s, _, _ =>
          [0] ++ s.contractID ++ (s.args.map argBytes).flatten
      | .invokeInstr, _, some i, _ =>
          [1] ++ i.contractID ++ (i.args.map argBytes).flatten
      | .deleteInstr, _, _, some d => [2] ++ d.contractID
      | _, _, _, _ => []) ++
    (instr.signerCounter.map u64le).flatten ++
    (instr.signerIdentities.map identityBytes).flatten

/-- An Invoke instruction with a one-byte command, used to separate the code
from the claimed byte layout. -/
def invokeExample : Instruction :=
  { instanceID := List.replicate 32 7
    spawn := none
    invoke := some { contractID := [99], command := [120], args := [] }
    delete := none
    signerCounter := [1]
    signerIdentities := [[5, 6]]
    signatures := [] }

/-! State changes (transaction.go) and the state-trie model (statetrie.go).
The trie package itself lives outside the extracted sources; a trie is
modelled as an association list from 32-byte instance IDs to decoded
`StateChangeBody` values, which is the view `GetValues`/`StoreAll` give the
service code. -/

/-- StateAction (transaction.go): Create, Update or Remove.  Go represents
the action as an `int`; every value the service produces is one of the three
named constants, which are the only ones modelled. -/
inductive StateAction where
  | create
  | update
  | remove
deriving DecidableEq, Repr

/-- StateChange (transaction.go): an action on one instance, with the new
value, the governing darc and the assigned version. -/
structure StateChange where
  stateAction : StateAction
  instanceID : Bytes
  contractID : Bytes
  value : Bytes
  darcID : Bytes
  version : Nat
deriving DecidableEq, Repr

/-- StateChangeBody (the trie value decoded by `decodeStateChangeBody`):
what `GetValues` returns for a stored instance. -/
structure StateChangeBody where
  stateAction : StateAction
  contractID : Bytes
  value : Bytes
  version : Nat
  darcID : Bytes
deriving DecidableEq, Repr

/-- The key/value view of a state trie: instance ID to stored body. -/
abbrev TrieMap := List (Bytes × StateChangeBody)

/-- Lookup of an instance; `none` is Go's `errKeyNotSet`.  Storage-level
failures of the underlying bbolt database are not modelled. -/
def trieGetBody (m : TrieMap) (k : Bytes) : Option StateChangeBody :=
  List.lookup k m

/-- The stored version of an instance, when present. -/
def trieGetVersion (m : TrieMap) (k : Bytes) : Option Nat :=
  (trieGetBody m k).map (·.version)

/-- Insertion or overwrite of one key (the trie's `OpSet`). -/
def trieSet (m : TrieMap) (k : Bytes) (v : StateChangeBody) : TrieMap :=
  (k, v) :: m.filter (fun p => p.1 != k)

/-- Deletion of one key (the trie's `OpDel`). -/
def trieDel (m : TrieMap) (k : Bytes) : TrieMap :=
  m.filter (fun p => p.1 != k)

/-- The trie value written for a state change, mirroring `StateChange.Val`. -/
def scBody (sc : StateChange) : StateChangeBody :=
  { stateAction := sc.stateAction
    contractID := sc.contractID
    value := sc.value
    version := sc.version
    darcID := sc.darcID }

/-- Application of one state change, following `StateChange.Op`
(transaction.go lines 465-473): Create and Update set the key, Remove
deletes it. -/
def applySC (m : TrieMap) (sc : StateChange) : TrieMap :=
  match sc.stateAction with
  | .create => trieSet m sc.instanceID (scBody sc)
  | .update => trieSet m sc.instanceID (scBody sc)
  | .remove => trieDel m sc.instanceID

/-- Application of a list of state changes in order (`StoreAll` / `Batch`). -/
def applySCs (m : TrieMap) (scs : List StateChange) : TrieMap :=
  scs.foldl applySC m

/-- Version a fresh state change on an instance receives before any
same-instruction repetition: stored version + 1, or 0 when the instance is
absent (service.go lines 1975-1984). -/
def baseVersion (st : TrieMap) (id : Bytes) : Nat :=
  match trieGetVersion st id with
  | none => 0
  | some v => v + 1

/-- The version cache `vv` of `executeInstruction`.  Go keys it by
`hex.EncodeToString(sc.InstanceID)`; hex encoding is injective on byte
strings, so the model keys it by the instance ID itself. -/
def vvLookup (vv : List (Bytes × Nat)) (k : Bytes) : Option Nat :=
  List.lookup k vv

/-- Version-assignment loop at the end of `executeInstruction` (service.go
lines 1966-1988): each state change gets the cached version + 1 when its
instance was already seen in this instruction, otherwise the stored trie
version + 1, or 0 when the instance is absent; the cache then records the
assigned version. -/
def assignVersions (st : TrieMap) : List StateChange → List (Bytes × Nat) → List StateChange
  | [], _ => []
  | sc :: rest, vv =>
      let ver : Nat :=
        match vvLookup vv sc.instanceID with
        | some v => v + 1
        | none => baseVersion st sc.instanceID
      { sc with version := ver } :: assignVersions st rest ((sc.instanceID, ver) :: vv)

/-- Number of state changes in `l` targeting instance `id`. -/
def countIdIn (l : List StateChange) (id : Bytes) : Nat :=
  l.countP (fun sc => sc.instanceID == id)

/-! Execution of instructions and transactions (service.go lines 1758-1991).
Contracts are external collaborators reached through the dispatch table
`s.contracts`; they enter the model as a registry parameter.  A contract that
panics is recovered into an error by `executeInstruction`, so contract
outcomes are modelled as `Except` values. -/

/-- Coin threaded through the instructions of one transaction. -/
structure Coin where
  name : Bytes
  value : Nat
deriving DecidableEq, Repr

/-- Error kinds of instruction and transaction execution.  Go carries
formatted strings; only the kind matters here. -/
inductive ExecError where
  | unknownContract
  | factoryFailed (msg : String)
  | verifyFailed (msg : String)
  | contractFailed (msg : String)
  | unexpectedContractType
  | counterFailed (msg : String)
  | createExisting
  | updateAbsent
  | removeAbsent
deriving DecidableEq, Repr

/-- Contract object as returned by a contract constructor: verification and
the three dispatch entry points. -/
structure Contract where
  verifyInstruction : TrieMap → Instruction → Bytes → Except String Unit
  spawn : TrieMap → Instruction → List Coin → Except String (List StateChange × List Coin)
  invoke : TrieMap → Instruction → List Coin → Except String (List StateChange × List Coin)
  delete : TrieMap → Instruction → List Coin → Except String (List StateChange × List Coin)

/-- The service's contract table `s.contracts`: contract ID to constructor
over the stored value bytes. -/
abbrev Registry := Bytes → Option (Bytes → Except String Contract)

/-- ConfigInstanceID: the all-zero instance ID holding the chain config. -/
def configInstanceID : Bytes := List.replicate 32 0

/-- Contract ID of the built-in config contract (the string "config";
declared with the config contract outside the extracted sources). -/
def contractConfigID : Bytes := [99, 111, 110, 102, 105, 103]

/-- Wrapping of a contract-level outcome into the execution error kind. -/
def mapContractErr {α : Type} : Except String α → Except ExecError α
  | .error msg => .error (.contractFailed msg)
  | .ok r => .ok r

/-- Service.executeInstruction before its final version loop (service.go
lines 1913-1964): read the target instance (absence tolerated, leaving empty
contents and contract ID), find the contract constructor — with the genesis
fallback to the config contract for the config instance — run verification,
and dispatch on the instruction variant; the default switch branch rejects
an invalid variant. -/
def executeInstructionRaw (reg : Registry) (st : TrieMap) (cin : List Coin)
    (instr : Instruction) (ctxHash : Bytes) : Except ExecError (List StateChange × List Coin) :=
  let contents : Bytes :=
    match trieGetBody st instr.instanceID with
    | some b => b.value
    | none => []
  let contractID : Bytes :=
    match trieGetBody st instr.instanceID with
    | some b => b.contractID
    | none => []
  let factory? :=
    match reg contractID with
    | some f => some f
    | none =>
        if instr.instanceID = configInstanceID then reg contractConfigID else none
  match factory? with
  | none => .error .unknownContract
  | some factory =>
      match factory contents with
      | .error msg => .error (.factoryFailed msg)
      | .ok c =>
          match c.verifyInstruction st instr ctxHash with
          | .error msg => .error (.verifyFailed msg)
          | .ok _ =>
              match instr.GetType with
              | .spawnInstr => mapContractErr (c.spawn st instr cin)
              | .invokeInstr => mapContractErr (c.invoke st instr cin)
              | .deleteInstr => mapContractErr (c.delete st instr cin)
              | .invalidInstr => .error .unexpectedContractType

/-- Service.executeInstruction (service.go lines 1913-1991): the dispatch
above followed by the version-assignment loop over the returned state
changes. -/
def executeInstruction (reg : Registry) (st : TrieMap) (cin : List Coin)
    (instr : Instruction) (ctxHash : Bytes) : Except ExecError (List StateChange × List Coin) :=
  match executeInstructionRaw reg st cin instr ctxHash with
  | .error e => .error e
  | .ok (scs, cout) => .ok (assignVersions st scs [], cout)

/-- Validity of one state change against the current staging trie
(service.go lines 1864-1879): Create needs the instance absent, Update and
Remove need it present. -/
def scCheckOK (sst : TrieMap) (sc : StateChange) : Bool :=
  match sc.stateAction with
  | .create => (trieGetBody sst sc.instanceID).isNone
  | .update => (trieGetBody sst sc.instanceID).isSome
  | .remove => (trieGetBody sst sc.instanceID).isSome

/-- The error reported for a forbidden state change. -/
def scCheckError (sc : StateChange) : ExecError :=
  match sc.stateAction with
  | .create => .createExisting
  | .update => .updateAbsent
  | .remove => .removeAbsent

/-- The per-state-change check-then-store loop of `ProcessOneTx` (service.go
lines 1864-1892): each state change is validated against the trie as mutated
by its predecessors, then stored; the first forbidden one aborts. -/
def checkStoreScs (sst : TrieMap) : List StateChange → Except ExecError TrieMap
  | [] => .ok sst
  | sc :: rest =>
      if scCheckOK sst sc then checkStoreScs (applySC sst sc) rest
      else .error (scCheckError sc)

/-- Signature of `incrementSignerCounters`, whose definition lives outside
the extracted sources: it returns the counter-bump state changes for the
signer identities, or an error. -/
abbrev IncCounters := TrieMap → List Bytes → Except String (List StateChange)

/-- ClientTransaction: ordered list of instructions. -/
structure ClientTransaction where
  instructions : List Instruction
deriving DecidableEq, Repr

/-- TxResult: a client transaction with its accepted bit. -/
structure TxResult where
  clientTransaction : ClientTransaction
  accepted : Bool
deriving DecidableEq, Repr

/-- Instruction loop of `ProcessOneTx` (service.go lines 1846-1899): run the
contract, compute the counter bumps, validate and store the contract's state
changes, store the counter bumps, thread the coins, and accumulate the state
changes in order. -/
def processInstrs (reg : Registry) (inc : IncCounters) (ctxHash : Bytes) :
    TrieMap → List Coin → List Instruction → Except ExecError (List StateChange × TrieMap × List Coin)
  | sst, cin, [] => .ok ([], sst, cin)
  | sst, cin, instr :: rest =>
      match executeInstruction reg sst cin instr ctxHash with
      | .error e => .error e
      | .ok (scs, cout) =>
          match inc sst instr.signerIdentities with
          | .error m => .error (.counterFailed m)
          | .ok counterScs =>
              match checkStoreScs sst scs with
              | .error e => .error e
              | .ok sst1 =>
                  match processInstrs reg inc ctxHash (applySCs sst1 counterScs) cout rest with
                  | .error e => .error e
                  | .ok (statesRest, sstF, cinF) =>
                      .ok (scs ++ counterScs ++ statesRest, sstF, cinF)

/-- Service.ProcessOneTx (service.go lines 1838-1904): the transaction runs
against a clone of the staging trie (value copy in this functional model)
and either yields its state changes with the mutated clone, or an error.
Left-over coins are discarded with a warning in Go; they are dropped here. -/
def ProcessOneTx (reg : Registry) (inc : IncCounters) (sst : TrieMap)
    (tx : ClientTransaction) : Except ExecError (List StateChange × TrieMap) :=
  match processInstrs reg inc (instructionsHash tx.instructions) sst [] tx.instructions with
  | .error e => .error e
  | .ok (states, sstF, _) => .ok (states, sstF)

/-- Transaction loop of `createStateChanges` (service.go lines 1780-1826) on
the follower path: no planning timeout, no size cut-off, and the
state-change cache is probed before this loop (a miss is modelled).  A
failing transaction is recorded with `accepted = false` and contributes
neither state changes nor a trie update; a succeeding one is recorded with
`accepted = true`, its state changes are appended and its trie kept. -/
def createStateChangesLoop (reg : Registry) (inc : IncCounters) :
    TrieMap → List TxResult → List TxResult × List StateChange × TrieMap
  | sstTemp, [] => ([], [], sstTemp)
  | sstTemp, tx :: rest =>
      match ProcessOneTx reg inc sstTemp tx.clientTransaction with
      | .error _ =>
          let r := createStateChangesLoop reg inc sstTemp rest
          ({ tx with accepted := false } :: r.1, r.2.1, r.2.2)
      | .ok (statesTemp, sstTempC) =>
          let r := createStateChangesLoop reg inc sstTempC rest
          ({ tx with accepted := true } :: r.1, statesTemp ++ r.2.1, r.2.2)

/-! Committed state trie with its block-index metadata (statetrie.go). -/

/-- The committed `stateTrie`: the key/value pairs plus the metadata entry
stored under `trieIndexKey`. -/
structure StateTrieSt where
  map : TrieMap
  meta : Option Bytes
deriving DecidableEq, Repr

/-- Byte value of a StateAction, the Go `iota + 1` constants. -/
def actionByte : StateAction → Nat
  | .create => 1
  | .update => 2
  | .remove => 3

/-- Canonical encoding of a stored body, used by the modelled root. -/
def encBody (b : StateChangeBody) : Bytes :=
  [actionByte b.stateAction] ++ u64le b.contractID.length ++ b.contractID
    ++ u64le b.value.length ++ b.value ++ u64le b.version
    ++ u64le b.darcID.length ++ b.darcID

/-- Strict lexicographic order on byte strings. -/
def lexLtB : Bytes → Bytes → Bool
  | [], [] => false
  | [], _ :: _ => true
  | _ :: _, [] => false
  | a :: as, b :: bs => if a < b then true else if b < a then false else lexLtB as bs

/-- Insertion into a key-sorted pair list. -/
def insertPair (p : Bytes × StateChangeBody) : TrieMap → TrieMap
  | [] => [p]
  | q :: rest => if lexLtB p.1 q.1 then p :: q :: rest else q :: insertPair p rest

/-- Key-sorted view of the trie pairs. -/
def sortPairs (m : TrieMap) : TrieMap := m.foldr insertPair []

/-- Modelled from the spec: the Merkle root of the state trie commits to
every current key/value pair (spec 4.1; the trie package with the concrete
Merkle structure is outside the extracted sources).  The model hashes the
length-prefixed pairs in key order. -/
def trieRoot (m : TrieMap) : Bytes :=
  sha256 (((sortPairs m).map
    (fun p => u64le p.1.length ++ p.1 ++ u64le (encBody p.2).length ++ encBody p.2)).flatten)

/-- stateTrie.VerifiedStoreAll (statetrie.go lines 138-157): inside one bbolt
`Update` transaction it applies the state changes, writes the block index as
the `trieIndexKey` metadata (4-byte little-endian of the index cast to
uint32), and then compares the resulting root with `expectedRoot`; on
mismatch the closure errors and bbolt rolls the whole transaction back, so
the stored trie and its metadata are unchanged. -/
def VerifiedStoreAll (t : StateTrieSt) (scs : List StateChange) (index : Nat)
    (expectedRoot : Bytes) : Except String Unit × StateTrieSt :=
  let m1 := applySCs t.map scs
  let t1 : StateTrieSt := { map := m1, meta := some (u32le index) }
  if trieRoot m1 = expectedRoot then (.ok (), t1)
  else (.error "root verfication failed", t)

/-! Timestamp window of the follower verifier (service.go lines 39-43 and
1712-1724).  Durations and timestamps are nanosecond counts; Go's
`time.Duration` multiplication wraps at 2^63 and is modelled exactly by
`wrap64`, while `time.Time` arithmetic does not overflow for realistic
values and is modelled on unbounded integers. -/

/-- minTimestampWindow: 10 seconds in nanoseconds. -/
def minTimestampWindow : Int := 10000000000

/-- Two's-complement wrap-around of Go int64 arithmetic. -/
def wrap64 (n : Int) : Int := (n + 2 ^ 63) % 2 ^ 64 - 2 ^ 63

/-- The timestamp check of `verifySkipBlock`: window is 4 times the block
interval, raised to `minTimestampWindow` when smaller; the block is rejected
when its timestamp is before `now - window` or after `now + window`. -/
def rejectTimestamp (blockInterval now ts : Int) : Bool :=
  let window0 := wrap64 (4 * blockInterval)
  let window := if window0 < minTimestampWindow then minTimestampWindow else window0
  decide (ts < now - window) || decide (now + window < ts)

/-! Client-facing handlers (service.go).  The skip-chain block store, the
onet request plumbing and the kyber crypto are external; they enter as
parameters. -/

/-- Error kinds surfaced by the client-facing handlers. -/
inductive SvcError where
  | catchingUp
  | versionMismatch
  | noSuchChain
  | darcNotFound (msg : String)
  | loopbackOnly
  | badSignature
deriving DecidableEq, Repr

/-- Node-local service state relevant to the read-only handlers: the
catch-up flag and the per-chain tries (`stateTries`, keyed by the chain ID;
Go keys the map by the hex string of the ID, which is injective, so the
model keys by the ID itself). -/
structure ServiceSt where
  catchingUp : Bool
  stateTries : List (Bytes × TrieMap)
deriving DecidableEq, Repr

/-- CurrentVersion of the API; declared with the message types outside the
extracted sources, and its concrete value is immaterial here. -/
def currentVersion : Nat := 1

/-- GetProof request: API version, block ID and the queried key. -/
structure GetProofReq where
  version : Nat
  id : Bytes
  key : Bytes
deriving DecidableEq, Repr

/-- Service.GetProof (service.go lines 378-417): under the trie lock it
fails fast while catching up, then checks the API version, then builds the
proof from the block store and the trie (that part is external and enters as
`core`). -/
def GetProof (core : GetProofReq → Except SvcError Bytes) (s : ServiceSt)
    (req : GetProofReq) : Except SvcError Bytes :=
  if s.catchingUp then .error .catchingUp
  else if req.version ≠ currentVersion then .error .versionMismatch
  else core req

/-- Darc: rule list of (action, expression) pairs; the darc wire format and
expression language live in the external darc package. -/
structure Darc where
  rules : List (Bytes × Bytes)
deriving DecidableEq, Repr

/-- CheckAuthorization request. -/
structure CheckAuthReq where
  version : Nat
  byzcoinID : Bytes
  darcID : Bytes
  identities : List Bytes
deriving DecidableEq, Repr

/-- Modelled from the spec: `LoadDarcFromTrie` (outside the extracted
sources) reads the darc instance stored under its ID from the trie and
decodes it; decoding of the external wire format enters as a parameter. -/
def loadDarcFromTrie (decode : Bytes → Option Darc) (st : TrieMap)
    (darcID : Bytes) : Except SvcError Darc :=
  match trieGetBody st darcID with
  | none => .error (.darcNotFound "key not set")
  | some b =>
      match decode b.value with
      | none => .error (.darcNotFound "decoding failed")
      | some d => .ok d

/-- Service.CheckAuthorization (service.go lines 422-465): checks the API
version, fetches the chain's trie, loads the darc and returns the actions of
every rule whose expression the identities satisfy (expression evaluation is
the external `darc.EvalExprDarc`, a parameter).  Note there is no
catching-up check on this path. -/
def CheckAuthorization (decode : Bytes → Option Darc)
    (evalExprDarc : Bytes → List Bytes → Bool) (s : ServiceSt)
    (req : CheckAuthReq) : Except SvcError (List Bytes) :=
  if req.version ≠ currentVersion then .error .versionMismatch
  else
    match List.lookup req.byzcoinID s.stateTries with
    | none => .error .noSuchChain
    | some st =>
        match loadDarcFromTrie decode st req.darcID with
        | .error e => .error e
        | .ok d => .ok ((d.rules.filter (fun r => evalExprDarc r.2 req.identities)).map (·.1))

/-- Service.ProcessClientRequest (service.go lines 656-670): only for the
exact path "Debug" it requires the request's remote address to be a loopback
address, then hands every request to the onet dispatcher (`dispatch`). -/
def ProcessClientRequest {α : Type} (dispatch : String → Except SvcError α)
    (remoteIsLoopback : Bool) (path : String) : Except SvcError α :=
  if path = "Debug" then
    if remoteIsLoopback then dispatch path
    else .error .loopbackOnly
  else dispatch path

/-- DebugRemove request: the chain ID and a Schnorr signature over it. -/
structure DebugRemoveReq where
  byzcoinID : Bytes
  signature : Bytes
deriving DecidableEq, Repr

/-- Service.DebugRemove (service.go lines 727-784): verifies the Schnorr
signature of the chain ID under the node's own public key (`schnorrVerifyOwn`,
external kyber crypto) and only then removes the chain's node-local state
(the removal itself touches external onet subsystems and is elided). -/
def DebugRemove (schnorrVerifyOwn : Bytes → Bytes → Bool)
    (req : DebugRemoveReq) : Except SvcError Unit :=
  if schnorrVerifyOwn req.byzcoinID req.signature then .ok ()
  else .error .badSignature

/-! Inclusion wait of AddTransaction (service.go lines 324-366).  The Go
loop selects over three channels — the transaction's wait channel, the
new-block subscription, and the hard timeout — and is modelled over the
serialized list of the events it receives. -/

/-- One event received by the inclusion-wait loop. -/
inductive TxWaitEvent where
  | txResult (success : Bool)
  | newBlock (chain : Bytes)
  | tooLong
deriving DecidableEq, Repr

/-- Error outcomes of AddTransaction's wait. -/
inductive AddTxError where
  | refused
  | noInclusion
  | timedOut
deriving DecidableEq, Repr

/-- The hard timeout of the wait: Go computes
`time.Duration(req.InclusionWait) * interval * 2` (service.go line 344) in
int64 `time.Duration` arithmetic, so each multiplication wraps at 2^63. -/
def tooLongDur (inclusionWait interval : Int) : Int :=
  wrap64 (wrap64 (inclusionWait * interval) * 2)

/-- The wait loop: a delivered transaction result ends the wait with its
accepted bit; a new block of the watched chain decrements `blocksLeft` and
reaching zero fails the wait; blocks of other chains are counted past; the
hard timeout fails the wait.  `none` means the events so far leave the call
still blocked. -/
def addTxWaitLoop (scID : Bytes) : Int → List TxWaitEvent → Option (Except AddTxError Unit)
  | _, [] => none
  | blocksLeft, e :: rest =>
      match e with
      | .txResult true => some (.ok ())
      | .txResult false => some (.error .refused)
      | .newBlock id =>
          let bl := if id = scID then blocksLeft - 1 else blocksLeft
          if bl = 0 then some (.error .noInclusion)
          else addTxWaitLoop scID bl rest
      | .tooLong => some (.error .timedOut)

/-- Predicate: the event is a new-block notification (of any chain). -/
def isNewBlockEvt : TxWaitEvent → Bool
  | .newBlock _ => true
  | _ => false

/-- Predicate: the event is a new-block notification of chain `scID`. -/
def isNewBlockOf (scID : Bytes) : TxWaitEvent → Bool
  | .newBlock id => id == scID
  | _ => false

/-! GetSignerCounters (service.go lines 468-492). -/

/-- Response of GetSignerCounters. -/
structure GetSignerCountersResponse where
  counters : List Nat
deriving DecidableEq, Repr

/-- The per-identity loop of GetSignerCounters: each requested signer ID is
resolved to its counter key (`publicVersionKey`, defined outside the
extracted sources, enters as `pvk`), an absent key yields 0, and a present
one decodes as little-endian uint64. -/
def signerCountersLoop (pvk : Bytes → Bytes) (st : TrieMap) : List Bytes → List Nat
  | [] => []
  | id :: rest =>
      (match trieGetBody st (pvk id) with
        | none => 0
        | some b => u64leDecode b.value) :: signerCountersLoop pvk st rest

/-- Service.GetSignerCounters: the response carries one counter per
requested signer ID, in request order.  Storage-level read failures (the
non-`errKeyNotSet` error path) are not modelled. -/
def GetSignerCounters (pvk : Bytes → Bytes) (st : TrieMap)
    (signerIDs : List Bytes) : GetSignerCountersResponse :=
  { counters := signerCountersLoop pvk st signerIDs }

/-- A copy of `invokeExample` differing only in the Invoke command. -/
def invokeExample2 : Instruction :=
  { invokeExample with
      invoke := some { contractID := [99], command := [121], args := [] } }

/-! Concrete inputs used to evaluate the theorems below on running code. -/

/-- An instance ID holding a stored instance in the example trie. -/
def exKey : Bytes := List.replicate 32 2

/-- A fresh instance ID absent from the example trie. -/
def exNewKey : Bytes := List.replicate 32 3

/-- Stored body of the example instance: contract [99], version 4. -/
def exBody : StateChangeBody :=
  { stateAction := .update, contractID := [99], value := [7], version := 4, darcID := [8] }

/-- Example trie with one stored instance. -/
def exTrie : TrieMap := [(exKey, exBody)]

/-- Raw state changes as returned by the example contract: two Creates on
the same fresh instance, before version assignment. -/
def exRawScs : List StateChange :=
  [{ stateAction := .create, instanceID := exNewKey, contractID := [99],
     value := [10], darcID := [8], version := 0 },
   { stateAction := .create, instanceID := exNewKey, contractID := [99],
     value := [11], darcID := [8], version := 0 }]

/-- Example contract: verification always passes, Spawn returns `exRawScs`. -/
def exContract : Contract :=
  { verifyInstruction := fun _ _ _ => .ok ()
    spawn := fun _ _ _ => .ok (exRawScs, [])
    invoke := fun _ _ _ => .error "not supported"
    delete := fun _ _ _ => .error "not supported" }

/-- Registry holding the example contract under ID [99]. -/
def exReg : Registry :=
  fun cid => if cid = [99] then some (fun _ => .ok exContract) else none

/-- Spawn instruction targeting the stored example instance. -/
def exInstr : Instruction :=
  { instanceID := exKey, spawn := some { contractID := [99], args := [] }
    invoke := none, delete := none
    signerCounter := [], signerIdentities := [], signatures := [] }

/-- Versioned output of the example contract's state changes. -/
def exScs : List StateChange := assignVersions exTrie exRawScs []

/-- Counter incrementer that produces no counter state changes. -/
def exInc : IncCounters := fun _ _ => .ok []

/-- Forbidden state change: a Create on the already stored instance. -/
def exViolSc : StateChange :=
  { stateAction := .create, instanceID := exKey, contractID := [99],
    value := [12], darcID := [8], version := 0 }

/-- Contract whose Spawn returns the forbidden Create. -/
def exViolContract : Contract :=
  { exContract with spawn := fun _ _ _ => .ok ([exViolSc], []) }

/-- Registry holding the violating contract under ID [99]. -/
def exViolReg : Registry :=
  fun cid => if cid = [99] then some (fun _ => .ok exViolContract) else none

/-- Versioned output of the violating contract. -/
def exViolScs : List StateChange := assignVersions exTrie [exViolSc] []

/-- Transaction whose single instruction triggers the violating contract. -/
def exViolTx : ClientTransaction := { instructions := [exInstr] }

/-- Empty registry: every contract is unknown. -/
def exEmptyReg : Registry := fun _ => none

/-- Instruction on a fresh non-config instance, so that execution fails with
an unknown contract under the empty registry. -/
def exUnknownInstr : Instruction :=
  { instanceID := List.replicate 32 1, spawn := some { contractID := [99], args := [] }
    invoke := none, delete := none
    signerCounter := [], signerIdentities := [], signatures := [] }

/-- Transaction wrapping the unknown-contract instruction. -/
def exFailTx : ClientTransaction := { instructions := [exUnknownInstr] }

/-- Trie holding one darc instance under key [2]. -/
def exDarcTrie : TrieMap :=
  [([2], { stateAction := .create, contractID := [100], value := [0],
           version := 0, darcID := [2] })]

/-- Service state that is catching up and knows chain [1]. -/
def exCatchingSvc : ServiceSt := { catchingUp := true, stateTries := [([1], exDarcTrie)] }

/-- Darc decoder returning an empty rule set for any value. -/
def exDecode : Bytes → Option Darc := fun _ => some { rules := [] }

/-- Expression evaluator rejecting everything (never reached on an empty
rule set). -/
def exEval : Bytes → List Bytes → Bool := fun _ _ => false

/-- CheckAuthorization request for the darc stored in `exDarcTrie`. -/
def exAuthReq : CheckAuthReq :=
  { version := currentVersion, byzcoinID := [1], darcID := [2], identities := [] }

/-- DebugRemove request with an arbitrary chain ID and signature. -/
def exDebugRemoveReq : DebugRemoveReq := { byzcoinID := [3], signature := [4] }

/-- Dispatcher routing the DebugRemove path to the DebugRemove handler with
an always-accepting signature verifier, everything else to an ack. -/
def exDispatch : String → Except SvcError Unit :=
  fun p => if p = "DebugRemove" then DebugRemove (fun _ _ => true) exDebugRemoveReq
           else .ok ()

end ByzCoin

/-- C1 (counterexample): the claimed canonical byte layout writes the Invoke
command string, but Go `Instruction.Hash` never writes `Invoke.Command`
(transaction.go lines 125-128 write only the tag, the contract ID and the
arguments).  At a concrete Invoke instruction the hashed bytes differ from
the claimed bytes, and two instructions that differ only in their command
hash to the same digest. -/
theorem C1_counterexample :
    ByzCoin.Instruction.hashInput ByzCoin.invokeExample ≠
      ByzCoin.specHashInputClaimed ByzCoin.invokeExample
    ∧ ByzCoin.Instruction.Hash ByzCoin.invokeExample =
      ByzCoin.Instruction.Hash ByzCoin.invokeExample2
    ∧ ByzCoin.invokeExample.invoke ≠ ByzCoin.invokeExample2.invoke := by
  refine ⟨by decide, rfl, by decide⟩

/-- C1 (amended): for every Instruction, the canonical bytes hashed by
`Instruction.Hash` are the 32-byte instance ID, the variant tag (0 Spawn,
1 Invoke, 2 Delete), the contract ID, then — with no command string even for
Invoke — each argument as u64-LE name length, name, u64-LE value length,
value, then each signer counter as u64-LE, then each signer identity as its
u64-LE length and public bytes; the result is the SHA-256 of that
concatenation. -/
theorem C1_instruction_hash_amended (instr : ByzCoin.Instruction) :
    ByzCoin.Instruction.Hash instr =
      ByzCoin.sha256 (ByzCoin.specHashInputAmended instr) := rfl

/-- Helper: the version assigned by `assignVersions` under a cache `vv` that
records, for every instance already counted by `c`, the last version
assigned to it. -/
theorem assignVersions_version_general (st : ByzCoin.TrieMap) :
    ∀ (scs : List ByzCoin.StateChange) (vv : List (ByzCoin.Bytes × Nat)) (c : ByzCoin.Bytes → Nat),
      (∀ id, ByzCoin.vvLookup vv id =
          match c id with
          | 0 => none
          | k + 1 => some (ByzCoin.baseVersion st id + k)) →
      ∀ i : Nat, ((ByzCoin.assignVersions st scs vv)[i]?).map (·.version) =
        (scs[i]?).map (fun sc => ByzCoin.baseVersion st sc.instanceID + c sc.instanceID
          + ByzCoin.countIdIn (scs.take i) sc.instanceID) := by
  intro scs
  induction scs with
  | nil => intro vv c hvv i; simp [ByzCoin.assignVersions]
  | cons sc rest ih =>
    intro vv c hvv i
    have hver : (match ByzCoin.vvLookup vv sc.instanceID with
        | some v => v + 1
        | none => ByzCoin.baseVersion st sc.instanceID)
        = ByzCoin.baseVersion st sc.instanceID + c sc.instanceID := by
      rw [hvv sc.instanceID]
      cases hc : c sc.instanceID with
      | zero => rfl
      | succ k => rfl
    have hunfold : ByzCoin.assignVersions st (sc :: rest) vv =
        { sc with version := ByzCoin.baseVersion st sc.instanceID + c sc.instanceID } ::
          ByzCoin.assignVersions st rest
            ((sc.instanceID, ByzCoin.baseVersion st sc.instanceID + c sc.instanceID) :: vv) := by
      rw [ByzCoin.assignVersions, hver]
    cases i with
    | zero =>
      rw [hunfold]
      simp [ByzCoin.countIdIn]
    | succ j =>
      rw [hunfold]
      have hvv' : ∀ id, ByzCoin.vvLookup
          ((sc.instanceID, ByzCoin.baseVersion st sc.instanceID + c sc.instanceID) :: vv) id =
          match (fun id => if id = sc.instanceID then c id + 1 else c id) id with
          | 0 => none
          | k + 1 => some (ByzCoin.baseVersion st id + k) := by
        intro id
        by_cases hid : id = sc.instanceID
        · subst hid
          simp [ByzCoin.vvLookup, List.lookup]
        · have hbeq : (id == sc.instanceID) = false := by
            simpa using hid
          simp only [ByzCoin.vvLookup, List.lookup, hbeq, if_neg hid]
          exact hvv id
      have := ih ((sc.instanceID, ByzCoin.baseVersion st sc.instanceID + c sc.instanceID) :: vv)
        (fun id => if id = sc.instanceID then c id + 1 else c id) hvv' j
      simp only [List.getElem?_cons_succ, List.take_succ_cons]
      rw [this]
      cases hrest : rest[j]? with
      | none => simp
      | some sc2 =>
        simp only [Option.map_some']
        congr 1
        by_cases h2 : sc2.instanceID = sc.instanceID
        · have hbeq : (sc.instanceID == sc2.instanceID) = true := by
            simp [h2]
          simp [ByzCoin.countIdIn, List.countP_cons, hbeq, if_pos h2]
          omega
        · have hbeq : (sc.instanceID == sc2.instanceID) = false := by
            simp; exact fun hh => h2 hh.symm
          simp [ByzCoin.countIdIn, List.countP_cons, hbeq, if_neg h2]

/-- Helper: version assignment does not touch the instance IDs. -/
theorem assignVersions_map_instanceID (st : ByzCoin.TrieMap) :
    ∀ (scs : List ByzCoin.StateChange) (vv : List (ByzCoin.Bytes × Nat)),
      (ByzCoin.assignVersions st scs vv).map (·.instanceID) = scs.map (·.instanceID) := by
  intro scs
  induction scs with
  | nil => intro vv; rfl
  | cons sc rest ih =>
    intro vv
    simp only [ByzCoin.assignVersions, List.map_cons]
    exact congrArg _ (ih _)

/-- Helper: a successful `executeInstruction` returns exactly the
version-assigned state changes of some raw contract output. -/
theorem executeInstruction_ok_versioned (reg : ByzCoin.Registry) (st : ByzCoin.TrieMap)
    (cin : List ByzCoin.Coin) (instr : ByzCoin.Instruction) (ctxHash : ByzCoin.Bytes)
    (scs : List ByzCoin.StateChange) (cout : List ByzCoin.Coin)
    (hok : ByzCoin.executeInstruction reg st cin instr ctxHash = .ok (scs, cout)) :
    ∃ raw, scs = ByzCoin.assignVersions st raw [] := by
  unfold ByzCoin.executeInstruction at hok
  cases hraw : ByzCoin.executeInstructionRaw reg st cin instr ctxHash with
  | error e => rw [hraw] at hok; exact absurd hok (by simp)
  | ok p =>
    rw [hraw] at hok
    obtain ⟨rawScs, rawCout⟩ := p
    simp only [Except.ok.injEq, Prod.mk.injEq] at hok
    exact ⟨rawScs, hok.1.symm⟩

/-- C2: every state change emitted by a successful `executeInstruction`
carries the version `last stored version + 1` (or 0 when its instance is
absent from the trie), plus one for each earlier state change of the same
instruction that targets the same instance ID. -/
theorem C2_version_assignment (reg : ByzCoin.Registry) (st : ByzCoin.TrieMap)
    (cin : List ByzCoin.Coin) (instr : ByzCoin.Instruction) (ctxHash : ByzCoin.Bytes)
    (scs : List ByzCoin.StateChange) (cout : List ByzCoin.Coin)
    (hok : ByzCoin.executeInstruction reg st cin instr ctxHash = .ok (scs, cout)) (i : Nat) :
    (scs[i]?).map (·.version) =
      (scs[i]?).map (fun sc => ByzCoin.baseVersion st sc.instanceID
        + ByzCoin.countIdIn (scs.take i) sc.instanceID) := by
  obtain ⟨raw, hraw⟩ :=
    executeInstruction_ok_versioned reg st cin instr ctxHash scs cout hok
  subst hraw
  have hg := assignVersions_version_general st raw [] (fun _ => 0) (fun _ => rfl) i
  rw [hg]
  have hmap := assignVersions_map_instanceID st raw []
  have hids : ((ByzCoin.assignVersions st raw [])[i]?).map (·.instanceID) =
      (raw[i]?).map (·.instanceID) := by
    rw [← List.getElem?_map, ← List.getElem?_map, hmap]
  have hcount : ∀ id, ByzCoin.countIdIn ((ByzCoin.assignVersions st raw []).take i) id =
      ByzCoin.countIdIn (raw.take i) id := by
    intro id
    unfold ByzCoin.countIdIn
    have h1 : ((ByzCoin.assignVersions st raw []).take i).map (·.instanceID) =
        (raw.take i).map (·.instanceID) := by
      rw [List.map_take, List.map_take, hmap]
    calc ((ByzCoin.assignVersions st raw []).take i).countP (fun sc => sc.instanceID == id)
        = (((ByzCoin.assignVersions st raw []).take i).map (·.instanceID)).countP
            (fun x => x == id) := by rw [List.countP_map]; rfl
      _ = ((raw.take i).map (·.instanceID)).countP (fun x => x == id) := by rw [h1]
      _ = (raw.take i).countP (fun sc => sc.instanceID == id) := by rw [List.countP_map]; rfl
  cases h1 : raw[i]? with
  | none =>
    cases h2 : (ByzCoin.assignVersions st raw [])[i]? with
    | none => rfl
    | some b => rw [h1, h2] at hids; exact absurd hids (by simp)
  | some a =>
    cases h2 : (ByzCoin.assignVersions st raw [])[i]? with
    | none => rw [h1, h2] at hids; exact absurd hids (by simp)
    | some b =>
      rw [h1, h2] at hids
      simp only [Option.map_some'] at hids ⊢
      have hid : b.instanceID = a.instanceID := by
        simpa using hids
      rw [hid, hcount]
      simp

/-- Witness for C2: the example contract emits two Creates on the same fresh
instance; they receive versions 0 and 1, matching the stated law at
index 1. -/
theorem C2_version_assignment_witness :
    ByzCoin.executeInstruction ByzCoin.exReg ByzCoin.exTrie [] ByzCoin.exInstr [] =
      .ok (ByzCoin.exScs, [])
    ∧ (ByzCoin.exScs[1]?).map (·.version) =
      (ByzCoin.exScs[1]?).map (fun sc => ByzCoin.baseVersion ByzCoin.exTrie sc.instanceID
        + ByzCoin.countIdIn (ByzCoin.exScs.take 1) sc.instanceID) :=
  ⟨rfl, C2_version_assignment ByzCoin.exReg ByzCoin.exTrie [] ByzCoin.exInstr []
    ByzCoin.exScs [] rfl 1⟩

/-- Helper: the counter loop is a map over the requested identities. -/
theorem signerCountersLoop_eq_map (pvk : ByzCoin.Bytes → ByzCoin.Bytes) (st : ByzCoin.TrieMap) :
    ∀ ids : List ByzCoin.Bytes, ByzCoin.signerCountersLoop pvk st ids =
      ids.map (fun id =>
        match ByzCoin.trieGetBody st (pvk id) with
        | none => 0
        | some b => ByzCoin.u64leDecode b.value) := by
  intro ids
  induction ids with
  | nil => rfl
  | cons id rest ih => simp only [ByzCoin.signerCountersLoop, List.map_cons, ih]

/-- C10: GetSignerCounters answers with exactly one entry per requested
signer ID, in request order; an identity whose counter key is absent from
the trie yields the value 0 rather than an error, and a present key decodes
as little-endian uint64. -/
theorem C10_get_signer_counters (pvk : ByzCoin.Bytes → ByzCoin.Bytes)
    (st : ByzCoin.TrieMap) (ids : List ByzCoin.Bytes) :
    (ByzCoin.GetSignerCounters pvk st ids).counters.length = ids.length
    ∧ ∀ i : Nat, (ByzCoin.GetSignerCounters pvk st ids).counters[i]? =
        (ids[i]?).map (fun id =>
          match ByzCoin.trieGetBody st (pvk id) with
          | none => 0
          | some b => ByzCoin.u64leDecode b.value) := by
  constructor
  · show (ByzCoin.signerCountersLoop pvk st ids).length = ids.length
    rw [signerCountersLoop_eq_map, List.length_map]
  · intro i
    show (ByzCoin.signerCountersLoop pvk st ids)[i]? = _
    rw [signerCountersLoop_eq_map, List.getElem?_map]

/-- C6: the follower's timestamp check rejects exactly when the header
timestamp lies outside the closed interval from `now - W` to `now + W`, with
`W = max (4 * block_interval) (10 s)`; stated for block intervals whose
4-fold does not overflow int64, which holds for every realistic chain
config. -/
theorem C6_timestamp_window (blockInterval now ts : Int)
    (h0 : 0 ≤ blockInterval) (h1 : 4 * blockInterval < 2 ^ 63) :
    ByzCoin.rejectTimestamp blockInterval now ts = true ↔
      ts < now - max (4 * blockInterval) ByzCoin.minTimestampWindow
      ∨ now + max (4 * blockInterval) ByzCoin.minTimestampWindow < ts := by
  have hw : ByzCoin.wrap64 (4 * blockInterval) = 4 * blockInterval := by
    unfold ByzCoin.wrap64
    rw [Int.emod_eq_of_lt (by omega) (by omega)]
    omega
  simp only [ByzCoin.rejectTimestamp, hw, Bool.or_eq_true, decide_eq_true_eq]
  by_cases hlt : 4 * blockInterval < ByzCoin.minTimestampWindow
  · rw [if_pos hlt, max_eq_right (le_of_lt hlt)]
  · rw [if_neg hlt, max_eq_left (not_lt.mp hlt)]

/-- Witness for C6: with the default 5 s block interval the window is 20 s,
and a timestamp 20 s + 1 ns past `now` is rejected. -/
theorem C6_timestamp_window_witness :
    ((0:Int) ≤ 5000000000 ∧ 4 * (5000000000:Int) < 2 ^ 63)
    ∧ (ByzCoin.rejectTimestamp 5000000000 0 20000000001 = true ↔
        (20000000001:Int) < 0 - max (4 * 5000000000) ByzCoin.minTimestampWindow
        ∨ 0 + max (4 * 5000000000) ByzCoin.minTimestampWindow < 20000000001) :=
  ⟨⟨by norm_num, by norm_num⟩,
    C6_timestamp_window 5000000000 0 20000000001 (by norm_num) (by norm_num)⟩

/-- C4: VerifiedStoreAll commits the state changes together with the block
index as metadata exactly when the root of the trie after applying them
equals the expected root; on a mismatch it returns an error and leaves the
stored trie, metadata included, unchanged. -/
theorem C4_verified_store_all (t : ByzCoin.StateTrieSt) (scs : List ByzCoin.StateChange)
    (index : Nat) (expectedRoot : ByzCoin.Bytes) :
    ((ByzCoin.VerifiedStoreAll t scs index expectedRoot).1 = .ok () ↔
      ByzCoin.trieRoot (ByzCoin.applySCs t.map scs) = expectedRoot)
    ∧ (ByzCoin.trieRoot (ByzCoin.applySCs t.map scs) = expectedRoot →
        ByzCoin.VerifiedStoreAll t scs index expectedRoot =
          (.ok (), { map := ByzCoin.applySCs t.map scs, meta := some (ByzCoin.u32le index) }))
    ∧ (ByzCoin.trieRoot (ByzCoin.applySCs t.map scs) ≠ expectedRoot →
        ByzCoin.VerifiedStoreAll t scs index expectedRoot =
          (.error "root verfication failed", t)) := by
  by_cases h : ByzCoin.trieRoot (ByzCoin.applySCs t.map scs) = expectedRoot
  · have hv : ByzCoin.VerifiedStoreAll t scs index expectedRoot =
        (.ok (), { map := ByzCoin.applySCs t.map scs, meta := some (ByzCoin.u32le index) }) := by
      simp only [ByzCoin.VerifiedStoreAll, if_pos h]
    exact ⟨by rw [hv]; simpa using h, fun _ => hv, fun hc => absurd h hc⟩
  · have hv : ByzCoin.VerifiedStoreAll t scs index expectedRoot =
        (.error "root verfication failed", t) := by
      simp only [ByzCoin.VerifiedStoreAll, if_neg h]
    refine ⟨by rw [hv]; simpa using h, fun hc => absurd hc h, fun _ => hv⟩

/-- Witness for C4: committing no changes to the empty trie with the
matching expected root succeeds and stores the index metadata. -/
theorem C4_verified_store_all_witness :
    ByzCoin.VerifiedStoreAll { map := [], meta := none } [] 5
        (ByzCoin.trieRoot (ByzCoin.applySCs [] [])) =
      (.ok (), { map := ByzCoin.applySCs [] [], meta := some (ByzCoin.u32le 5) }) :=
  (C4_verified_store_all { map := [], meta := none } [] 5
    (ByzCoin.trieRoot (ByzCoin.applySCs [] []))).2.1 rfl

/-- C3: a transaction whose execution fails contributes nothing to the block
under construction: it is recorded with `accepted = false`, no state changes
are appended, and the staging trie the loop continues with is exactly the
one from before the transaction. -/
theorem C3_failed_tx_no_residue (reg : ByzCoin.Registry) (inc : ByzCoin.IncCounters)
    (sstTemp : ByzCoin.TrieMap) (tx : ByzCoin.TxResult) (rest : List ByzCoin.TxResult)
    (e : ByzCoin.ExecError)
    (hfail : ByzCoin.ProcessOneTx reg inc sstTemp tx.clientTransaction = .error e) :
    ByzCoin.createStateChangesLoop reg inc sstTemp (tx :: rest) =
      ({ tx with accepted := false } ::
          (ByzCoin.createStateChangesLoop reg inc sstTemp rest).1,
        (ByzCoin.createStateChangesLoop reg inc sstTemp rest).2.1,
        (ByzCoin.createStateChangesLoop reg inc sstTemp rest).2.2) := by
  simp only [ByzCoin.createStateChangesLoop, hfail]

/-- Witness for C3: a transaction on an unknown contract fails and leaves
the (empty) staging trie and state-change list untouched. -/
theorem C3_failed_tx_no_residue_witness :
    ByzCoin.ProcessOneTx ByzCoin.exEmptyReg ByzCoin.exInc [] ByzCoin.exFailTx =
      .error .unknownContract
    ∧ ByzCoin.createStateChangesLoop ByzCoin.exEmptyReg ByzCoin.exInc []
        [{ clientTransaction := ByzCoin.exFailTx, accepted := true }] =
      ({ clientTransaction := ByzCoin.exFailTx, accepted := false } ::
          (ByzCoin.createStateChangesLoop ByzCoin.exEmptyReg ByzCoin.exInc [] []).1,
        (ByzCoin.createStateChangesLoop ByzCoin.exEmptyReg ByzCoin.exInc [] []).2.1,
        (ByzCoin.createStateChangesLoop ByzCoin.exEmptyReg ByzCoin.exInc [] []).2.2) :=
  ⟨rfl, C3_failed_tx_no_residue ByzCoin.exEmptyReg ByzCoin.exInc []
    { clientTransaction := ByzCoin.exFailTx, accepted := true } [] .unknownContract rfl⟩

/-- Helper: a forbidden state change anywhere in the list makes the
check-then-store loop fail, whatever comes after it. -/
theorem checkStoreScs_error_of_violation :
    ∀ (pre : List ByzCoin.StateChange) (sst : ByzCoin.TrieMap) (sc : ByzCoin.StateChange)
      (post : List ByzCoin.StateChange),
      ByzCoin.scCheckOK (ByzCoin.applySCs sst pre) sc = false →
      ∃ e, ByzCoin.checkStoreScs sst (pre ++ sc :: post) = .error e := by
  intro pre
  induction pre with
  | nil =>
    intro sst sc post hv
    have hv' : ByzCoin.scCheckOK sst sc = false := hv
    refine ⟨ByzCoin.scCheckError sc, ?_⟩
    simp only [List.nil_append, ByzCoin.checkStoreScs, hv']
    simp
  | cons p pre ih =>
    intro sst sc post hv
    by_cases hp : ByzCoin.scCheckOK sst p = true
    · have hv' : ByzCoin.scCheckOK (ByzCoin.applySCs (ByzCoin.applySC sst p) pre) sc = false := hv
      obtain ⟨e, he⟩ := ih (ByzCoin.applySC sst p) sc post hv'
      refine ⟨e, ?_⟩
      simp only [List.cons_append, ByzCoin.checkStoreScs, if_pos hp]
      exact he
    · refine ⟨ByzCoin.scCheckError p, ?_⟩
      simp only [List.cons_append, ByzCoin.checkStoreScs, if_neg hp]

/-- Helper: when the contract output of an instruction contains a state
change the check loop rejects, processing the instruction list starting at
that instruction fails. -/
theorem processInstrs_error_of_checkStore (reg : ByzCoin.Registry) (inc : ByzCoin.IncCounters)
    (ctxHash : ByzCoin.Bytes) (sst : ByzCoin.TrieMap) (cin : List ByzCoin.Coin)
    (instr : ByzCoin.Instruction) (post : List ByzCoin.Instruction)
    (scs : List ByzCoin.StateChange) (cout : List ByzCoin.Coin)
    (hexec : ByzCoin.executeInstruction reg sst cin instr ctxHash = .ok (scs, cout))
    (e0 : ByzCoin.ExecError) (hcheck : ByzCoin.checkStoreScs sst scs = .error e0) :
    ∃ e, ByzCoin.processInstrs reg inc ctxHash sst cin (instr :: post) = .error e := by
  cases hinc : inc sst instr.signerIdentities with
  | error m =>
    exact ⟨.counterFailed m, by
      simp only [ByzCoin.processInstrs, hexec, hinc]⟩
  | ok cScs =>
    exact ⟨e0, by
      simp only [ByzCoin.processInstrs, hexec, hinc, hcheck]⟩

/-- Helper: after a successful prefix, a failure in the remaining
instructions fails the whole list. -/
theorem processInstrs_append_error (reg : ByzCoin.Registry) (inc : ByzCoin.IncCounters)
    (ctxHash : ByzCoin.Bytes) :
    ∀ (pre : List ByzCoin.Instruction) (sst : ByzCoin.TrieMap) (cin : List ByzCoin.Coin)
      (states0 : List ByzCoin.StateChange) (st0 : ByzCoin.TrieMap) (cin0 : List ByzCoin.Coin),
      ByzCoin.processInstrs reg inc ctxHash sst cin pre = .ok (states0, st0, cin0) →
      ∀ (l2 : List ByzCoin.Instruction) (e : ByzCoin.ExecError),
        ByzCoin.processInstrs reg inc ctxHash st0 cin0 l2 = .error e →
        ByzCoin.processInstrs reg inc ctxHash sst cin (pre ++ l2) = .error e := by
  intro pre
  induction pre with
  | nil =>
    intro sst cin states0 st0 cin0 hpre l2 e hl2
    simp only [ByzCoin.processInstrs, Except.ok.injEq, Prod.mk.injEq] at hpre
    obtain ⟨-, h2, h3⟩ := hpre
    subst h2; subst h3
    simpa using hl2
  | cons instr pre ih =>
    intro sst cin states0 st0 cin0 hpre l2 e hl2
    rw [ByzCoin.processInstrs] at hpre
    rw [List.cons_append, ByzCoin.processInstrs]
    cases hexec : ByzCoin.executeInstruction reg sst cin instr ctxHash with
    | error e1 => rw [hexec] at hpre; simp at hpre
    | ok p =>
      obtain ⟨scsI, coutI⟩ := p
      rw [hexec] at hpre
      dsimp only at hpre ⊢
      cases hinc : inc sst instr.signerIdentities with
      | error m => rw [hinc] at hpre; simp at hpre
      | ok cScs =>
        rw [hinc] at hpre
        dsimp only at hpre ⊢
        cases hcs : ByzCoin.checkStoreScs sst scsI with
        | error e2 => rw [hcs] at hpre; simp at hpre
        | ok sst1 =>
          rw [hcs] at hpre
          dsimp only at hpre ⊢
          cases hrec : ByzCoin.processInstrs reg inc ctxHash
              (ByzCoin.applySCs sst1 cScs) coutI pre with
          | error e3 => rw [hrec] at hpre; simp at hpre
          | ok q =>
            obtain ⟨sR, stR, cR⟩ := q
            rw [hrec] at hpre
            simp only [Except.ok.injEq, Prod.mk.injEq] at hpre
            obtain ⟨-, h2, h3⟩ := hpre
            subst h2; subst h3
            rw [ih (ByzCoin.applySCs sst1 cScs) coutI sR stR cR hrec l2 e hl2]

/-- C5: when the contract output of an instruction contains a Create on a
present instance, an Update on an absent instance or a Remove on an absent
instance — judged against the staging trie as mutated by the preceding state
changes of the same instruction — the whole transaction fails: ProcessOneTx
returns an error and the block-building loop records the transaction with
`accepted = false`, discarding all its state changes. -/
theorem C5_forbidden_state_change (reg : ByzCoin.Registry) (inc : ByzCoin.IncCounters)
    (sst : ByzCoin.TrieMap) (tx : ByzCoin.ClientTransaction)
    (pre post : List ByzCoin.Instruction) (instr : ByzCoin.Instruction)
    (states0 : List ByzCoin.StateChange) (st0 : ByzCoin.TrieMap) (cin0 : List ByzCoin.Coin)
    (scs : List ByzCoin.StateChange) (cout : List ByzCoin.Coin) (i : Nat)
    (rest : List ByzCoin.TxResult) (acc : Bool)
    (hsplit : tx.instructions = pre ++ instr :: post)
    (hpre : ByzCoin.processInstrs reg inc (ByzCoin.instructionsHash tx.instructions) sst [] pre
      = .ok (states0, st0, cin0))
    (hexec : ByzCoin.executeInstruction reg st0 cin0 instr
      (ByzCoin.instructionsHash tx.instructions) = .ok (scs, cout))
    (hi : i < scs.length)
    (hviol : ByzCoin.scCheckOK (ByzCoin.applySCs st0 (scs.take i)) scs[i] = false) :
    (∃ e, ByzCoin.ProcessOneTx reg inc sst tx = .error e)
    ∧ ByzCoin.createStateChangesLoop reg inc sst
        ({ clientTransaction := tx, accepted := acc } :: rest) =
      ({ clientTransaction := tx, accepted := false } ::
          (ByzCoin.createStateChangesLoop reg inc sst rest).1,
        (ByzCoin.createStateChangesLoop reg inc sst rest).2.1,
        (ByzCoin.createStateChangesLoop reg inc sst rest).2.2) := by
  have hscs : scs.take i ++ scs[i] :: scs.drop (i + 1) = scs := by
    conv_rhs => rw [← List.take_append_drop i scs, List.drop_eq_getElem_cons hi]
  obtain ⟨e0, hcs⟩ := checkStoreScs_error_of_violation (scs.take i) st0
    scs[i] (scs.drop (i + 1)) hviol
  rw [hscs] at hcs
  obtain ⟨e1, hstep⟩ := processInstrs_error_of_checkStore reg inc
    (ByzCoin.instructionsHash tx.instructions) st0 cin0 instr post scs cout hexec e0 hcs
  have hall := processInstrs_append_error reg inc (ByzCoin.instructionsHash tx.instructions)
    pre sst [] states0 st0 cin0 hpre (instr :: post) e1 hstep
  rw [← hsplit] at hall
  have hpot : ByzCoin.ProcessOneTx reg inc sst tx = .error e1 := by
    simp only [ByzCoin.ProcessOneTx, hall]
  exact ⟨⟨e1, hpot⟩, by simp only [ByzCoin.createStateChangesLoop, hpot]⟩

/-- Witness for C5: a contract whose Spawn emits a Create on an instance
already stored in the trie; the transaction fails and is recorded as not
accepted, contributing nothing. -/
theorem C5_forbidden_state_change_witness :
    (∃ e, ByzCoin.ProcessOneTx ByzCoin.exViolReg ByzCoin.exInc ByzCoin.exTrie ByzCoin.exViolTx
      = .error e)
    ∧ ByzCoin.createStateChangesLoop ByzCoin.exViolReg ByzCoin.exInc ByzCoin.exTrie
        ({ clientTransaction := ByzCoin.exViolTx, accepted := true } :: []) =
      ({ clientTransaction := ByzCoin.exViolTx, accepted := false } ::
          (ByzCoin.createStateChangesLoop ByzCoin.exViolReg ByzCoin.exInc ByzCoin.exTrie []).1,
        (ByzCoin.createStateChangesLoop ByzCoin.exViolReg ByzCoin.exInc ByzCoin.exTrie []).2.1,
        (ByzCoin.createStateChangesLoop ByzCoin.exViolReg ByzCoin.exInc ByzCoin.exTrie []).2.2) :=
  C5_forbidden_state_change ByzCoin.exViolReg ByzCoin.exInc ByzCoin.exTrie ByzCoin.exViolTx
    [] [] ByzCoin.exInstr [] ByzCoin.exTrie [] ByzCoin.exViolScs [] 0 [] true
    rfl rfl rfl (by decide) (by decide)

/-- C7 (counterexample): while the service is catching up, CheckAuthorization
does not fail fast: at a concrete catching-up service state it answers from
the trie with a successful (empty) action list.  Only GetProof checks the
catching-up flag (service.go line 381); CheckAuthorization (lines 422-465)
never reads it. -/
theorem C7_counterexample :
    ByzCoin.exCatchingSvc.catchingUp = true
    ∧ ByzCoin.CheckAuthorization ByzCoin.exDecode ByzCoin.exEval ByzCoin.exCatchingSvc
        ByzCoin.exAuthReq = .ok [] :=
  ⟨rfl, rfl⟩

/-- C7 (amended): while the service is catching up, GetProof fails fast with
the catching-up error before touching the trie; CheckAuthorization ignores
the catching-up flag entirely — its answer is the same as with the flag
cleared. -/
theorem C7_amended_catching_up (core : ByzCoin.GetProofReq → Except ByzCoin.SvcError ByzCoin.Bytes)
    (decode : ByzCoin.Bytes → Option ByzCoin.Darc)
    (evalE : ByzCoin.Bytes → List ByzCoin.Bytes → Bool)
    (s : ByzCoin.ServiceSt) (req1 : ByzCoin.GetProofReq) (req2 : ByzCoin.CheckAuthReq)
    (hcu : s.catchingUp = true) :
    ByzCoin.GetProof core s req1 = .error .catchingUp
    ∧ ByzCoin.CheckAuthorization decode evalE s req2 =
        ByzCoin.CheckAuthorization decode evalE { s with catchingUp := false } req2 := by
  constructor
  · simp [ByzCoin.GetProof, hcu]
  · rfl

/-- Witness for C7 (amended): at the concrete catching-up service state,
GetProof errors and CheckAuthorization gives the same answer as with the
flag cleared. -/
theorem C7_amended_catching_up_witness :
    ByzCoin.exCatchingSvc.catchingUp = true
    ∧ (ByzCoin.GetProof (fun _ => .ok []) ByzCoin.exCatchingSvc
          { version := ByzCoin.currentVersion, id := [], key := [] } = .error .catchingUp
      ∧ ByzCoin.CheckAuthorization ByzCoin.exDecode ByzCoin.exEval ByzCoin.exCatchingSvc
          ByzCoin.exAuthReq =
        ByzCoin.CheckAuthorization ByzCoin.exDecode ByzCoin.exEval
          { ByzCoin.exCatchingSvc with catchingUp := false } ByzCoin.exAuthReq) :=
  ⟨rfl, C7_amended_catching_up (fun _ => .ok []) ByzCoin.exDecode ByzCoin.exEval
    ByzCoin.exCatchingSvc { version := ByzCoin.currentVersion, id := [], key := [] }
    ByzCoin.exAuthReq rfl⟩

/-- C8 (counterexample): a DebugRemove request from a non-loopback remote
address is not rejected by the loopback gate: `ProcessClientRequest` only
guards the exact path "Debug" (service.go line 657), so the request reaches
the handler and — with a valid signature — succeeds. -/
theorem C8_counterexample :
    ByzCoin.ProcessClientRequest ByzCoin.exDispatch false "DebugRemove" = .ok () :=
  rfl

/-- C8 (amended): only the Debug endpoint is restricted to loopback remote
addresses; DebugRemove is reachable from any remote address and instead
fails exactly when the Schnorr signature of the chain ID does not verify
under the node's own public key. -/
theorem C8_amended_loopback_gate {α : Type} (dispatch : String → Except ByzCoin.SvcError α)
    (lb : Bool) (path : String) (sv : ByzCoin.Bytes → ByzCoin.Bytes → Bool)
    (req : ByzCoin.DebugRemoveReq) :
    ByzCoin.ProcessClientRequest dispatch false "Debug" = .error .loopbackOnly
    ∧ (path ≠ "Debug" → ByzCoin.ProcessClientRequest dispatch lb path = dispatch path)
    ∧ (sv req.byzcoinID req.signature = false →
        ByzCoin.DebugRemove sv req = .error .badSignature)
    ∧ (sv req.byzcoinID req.signature = true → ByzCoin.DebugRemove sv req = .ok ()) := by
  refine ⟨rfl, fun hp => ?_, fun hs => ?_, fun hs => ?_⟩
  · simp only [ByzCoin.ProcessClientRequest, if_neg hp]
  · simp [ByzCoin.DebugRemove, hs]
  · simp [ByzCoin.DebugRemove, hs]

/-- Witness for C8 (amended): the DebugRemove path passes the gate from any
remote address, and an invalid signature is rejected by the handler. -/
theorem C8_amended_loopback_gate_witness :
    (("DebugRemove" : String) ≠ "Debug"
      ∧ ByzCoin.ProcessClientRequest ByzCoin.exDispatch true "DebugRemove" =
          ByzCoin.exDispatch "DebugRemove")
    ∧ ByzCoin.DebugRemove (fun _ _ => false) ByzCoin.exDebugRemoveReq =
        .error .badSignature :=
  ⟨⟨by decide, (C8_amended_loopback_gate ByzCoin.exDispatch true "DebugRemove"
      (fun _ _ => false) ByzCoin.exDebugRemoveReq).2.1 (by decide)⟩,
    (C8_amended_loopback_gate ByzCoin.exDispatch true "DebugRemove"
      (fun _ _ => false) ByzCoin.exDebugRemoveReq).2.2.1 rfl⟩

/-- Helper: on a trace of pure new-block notifications, the wait loop fails
exactly when at least `blocksLeft` of them concern the watched chain, and
stays blocked otherwise. -/
theorem addTxWaitLoop_blocks (scID : ByzCoin.Bytes) :
    ∀ (evts : List ByzCoin.TxWaitEvent) (bl : Int), 1 ≤ bl →
      evts.all ByzCoin.isNewBlockEvt = true →
      ByzCoin.addTxWaitLoop scID bl evts =
        (if bl ≤ (evts.countP (ByzCoin.isNewBlockOf scID) : Int) then
          some (.error .noInclusion) else none) := by
  intro evts
  induction evts with
  | nil =>
    intro bl hbl _
    have hc : ¬ bl ≤ ((List.countP (ByzCoin.isNewBlockOf scID) [] : Nat) : Int) := by
      simp; omega
    rw [if_neg hc]
    rfl
  | cons e rest ih =>
    intro bl hbl hall
    cases e with
    | txResult s => simp [ByzCoin.isNewBlockEvt] at hall
    | tooLong => simp [ByzCoin.isNewBlockEvt] at hall
    | newBlock id =>
      have hrest : rest.all ByzCoin.isNewBlockEvt = true := by
        simpa [ByzCoin.isNewBlockEvt] using hall
      by_cases hid : id = scID
      · have hcnt : (ByzCoin.TxWaitEvent.newBlock id :: rest).countP
            (ByzCoin.isNewBlockOf scID) = rest.countP (ByzCoin.isNewBlockOf scID) + 1 := by
          simp [List.countP_cons, ByzCoin.isNewBlockOf, hid]
        rw [hcnt]
        by_cases hone : bl - 1 = 0
        · have hstep : ByzCoin.addTxWaitLoop scID bl
              (ByzCoin.TxWaitEvent.newBlock id :: rest) = some (.error .noInclusion) := by
            simp only [ByzCoin.addTxWaitLoop, if_pos hid, hone]
            simp
          rw [hstep, if_pos (by push_cast; omega)]
        · have hstep : ByzCoin.addTxWaitLoop scID bl
              (ByzCoin.TxWaitEvent.newBlock id :: rest) =
              ByzCoin.addTxWaitLoop scID (bl - 1) rest := by
            simp only [ByzCoin.addTxWaitLoop, if_pos hid, if_neg hone]
          rw [hstep, ih (bl - 1) (by omega) hrest]
          by_cases hle : bl - 1 ≤ (rest.countP (ByzCoin.isNewBlockOf scID) : Int)
          · rw [if_pos hle, if_pos (by push_cast at hle ⊢; omega)]
          · rw [if_neg hle, if_neg (by push_cast at hle ⊢; omega)]
      · have hcnt : (ByzCoin.TxWaitEvent.newBlock id :: rest).countP
            (ByzCoin.isNewBlockOf scID) = rest.countP (ByzCoin.isNewBlockOf scID) := by
          simp [List.countP_cons, ByzCoin.isNewBlockOf, hid]
        have hstep : ByzCoin.addTxWaitLoop scID bl
            (ByzCoin.TxWaitEvent.newBlock id :: rest) =
            ByzCoin.addTxWaitLoop scID bl rest := by
          simp only [ByzCoin.addTxWaitLoop, if_neg hid]
          rw [if_neg (by omega)]
        rw [hcnt, hstep, ih bl hbl hrest]

/-- C9: with inclusion_wait = N > 0, the wait of AddTransaction — modelled
over the serialized events its select receives — returns success exactly on
a delivered accepted=true result, an error on a delivered accepted=false
result, an error on the hard timeout, and, on new-block notifications alone,
an error exactly once N blocks of the watched chain have been committed,
staying blocked before that.  The timeout duration is computed in wrapping
int64 arithmetic and equals the claim's 2 * N * interval whenever the
products do not overflow, which holds for every realistic request. -/
theorem C9_add_transaction_inclusion_wait (scID : ByzCoin.Bytes) (bl iv : Int)
    (rest evts : List ByzCoin.TxWaitEvent)
    (hbl : 1 ≤ bl) (hblocks : evts.all ByzCoin.isNewBlockEvt = true) :
    ByzCoin.addTxWaitLoop scID bl (.txResult true :: rest) = some (.ok ())
    ∧ ByzCoin.addTxWaitLoop scID bl (.txResult false :: rest) = some (.error .refused)
    ∧ ByzCoin.addTxWaitLoop scID bl (.tooLong :: rest) = some (.error .timedOut)
    ∧ (ByzCoin.addTxWaitLoop scID bl evts = some (.error .noInclusion) ↔
        bl ≤ (evts.countP (ByzCoin.isNewBlockOf scID) : Int))
    ∧ (ByzCoin.addTxWaitLoop scID bl evts = none ↔
        (evts.countP (ByzCoin.isNewBlockOf scID) : Int) < bl)
    ∧ (0 ≤ bl * iv → 2 * (bl * iv) < 2 ^ 63 →
        ByzCoin.tooLongDur bl iv = 2 * bl * iv) := by
  refine ⟨rfl, rfl, rfl, ?_, ?_, ?_⟩
  · rw [addTxWaitLoop_blocks scID evts bl hbl hblocks]
    by_cases h : bl ≤ (evts.countP (ByzCoin.isNewBlockOf scID) : Int)
    · simp [h]
    · simp [h]
  · rw [addTxWaitLoop_blocks scID evts bl hbl hblocks]
    by_cases h : bl ≤ (evts.countP (ByzCoin.isNewBlockOf scID) : Int)
    · simp only [if_pos h]
      constructor
      · intro hcontra; exact absurd hcontra (by simp)
      · intro hlt; omega
    · simp only [if_neg h]
      constructor
      · intro _; omega
      · intro _; trivial
  · intro h1 h2
    have hw1 : ByzCoin.wrap64 (bl * iv) = bl * iv := by
      unfold ByzCoin.wrap64
      rw [Int.emod_eq_of_lt (by omega) (by omega)]
      omega
    have hw2 : ByzCoin.wrap64 (bl * iv * 2) = bl * iv * 2 := by
      unfold ByzCoin.wrap64
      rw [Int.emod_eq_of_lt (by omega) (by omega)]
      omega
    unfold ByzCoin.tooLongDur
    rw [hw1, hw2]
    ring

/-- Witness for C9: waiting for one block on chain [1], a single new-block
event of that chain ends the wait with the no-inclusion error, and the
timeout duration at interval 7 is 2 * 1 * 7 (no int64 overflow). -/
theorem C9_add_transaction_inclusion_wait_witness :
    ((1:Int) ≤ 1 ∧ ([ByzCoin.TxWaitEvent.newBlock [1]].all ByzCoin.isNewBlockEvt = true)
      ∧ (0:Int) ≤ 1 * 7 ∧ 2 * ((1:Int) * 7) < 2 ^ 63)
    ∧ (ByzCoin.addTxWaitLoop [1] 1 (.txResult true :: []) = some (.ok ())
      ∧ ByzCoin.addTxWaitLoop [1] 1 (.txResult false :: []) = some (.error .refused)
      ∧ ByzCoin.addTxWaitLoop [1] 1 (.tooLong :: []) = some (.error .timedOut)
      ∧ (ByzCoin.addTxWaitLoop [1] 1 [ByzCoin.TxWaitEvent.newBlock [1]] =
            some (.error .noInclusion) ↔
          (1:Int) ≤ ([ByzCoin.TxWaitEvent.newBlock [1]].countP
            (ByzCoin.isNewBlockOf [1]) : Int))
      ∧ (ByzCoin.addTxWaitLoop [1] 1 [ByzCoin.TxWaitEvent.newBlock [1]] = none ↔
          (([ByzCoin.TxWaitEvent.newBlock [1]].countP
            (ByzCoin.isNewBlockOf [1]) : Nat) : Int) < 1)
      ∧ ByzCoin.tooLongDur 1 7 = 2 * 1 * 7) := by
  have h := C9_add_transaction_inclusion_wait [1] 1 7 [] [ByzCoin.TxWaitEvent.newBlock [1]]
    (by norm_num) (by decide)
  exact ⟨⟨by norm_num, by decide, by norm_num, by norm_num⟩,
    h.1, h.2.1, h.2.2.1, h.2.2.2.1, h.2.2.2.2.1,
    h.2.2.2.2.2 (by norm_num) (by norm_num)⟩
